import Mathlib

/-!
Verification development for the template compilation and lookup engine of the
unrolled/render repository (Go). The definitions below are a shallow embedding
of the source files: the walker, option preparation, layout composition and
HTML response assembly follow render.go (the walker file), the helper
stand-ins follow helpers.go, and the buffered HTML engine follows engine.go.
Strings are modelled as Lean strings (the repository's template names and
extensions are ASCII, so Go's byte slicing coincides with character slicing).
The external html/template library is modelled at its interface: a file's raw
contents either parse to a body (a list of nodes) or are malformed, parsing
validates referenced function names against the current function table, and
execution renders a body against a string binding with HTML escaping for
string-valued output and no escaping for pre-escaped (safe HTML) output.
-/

namespace RenderLib

/-- Association list lookup by string key, first match wins. -/
def alookup {α : Type} : List (String × α) → String → Option α
  | [], _ => none
  | (k, v) :: t, q => if k = q then some v else alookup t q

/-- Association list insert with replace-or-append semantics: a later insert
of an existing key overwrites the earlier binding, as Go's map assignment and
template.Funcs merging do. -/
def ainsert {α : Type} (k : String) (v : α) : List (String × α) → List (String × α)
  | [] => [(k, v)]
  | (k0, v0) :: t => if k0 = k then (k, v) :: t else (k0, v0) :: ainsert k v t

theorem alookup_ainsert_self {α : Type} (k : String) (v : α) :
    ∀ l : List (String × α), alookup (ainsert k v l) k = some v := by
  intro l
  induction l with
  | nil => simp [ainsert, alookup]
  | cons h t ih =>
      obtain ⟨k0, v0⟩ := h
      by_cases hk : k0 = k
      · simp [ainsert, hk, alookup]
      · simp [ainsert, hk, alookup, ih]

theorem alookup_ainsert_of_ne {α : Type} (k q : String) (v : α) (hne : k ≠ q) :
    ∀ l : List (String × α), alookup (ainsert k v l) q = alookup l q := by
  intro l
  induction l with
  | nil => simp [ainsert, alookup, hne]
  | cons h t ih =>
      obtain ⟨k0, v0⟩ := h
      by_cases hk : k0 = k
      · subst hk
        simp [ainsert, alookup, hne, ih]
      · simp [ainsert, hk, alookup, ih]

theorem alookup_ainsert_isSome {α : Type} (k q : String) (v : α) (l : List (String × α)) :
    (alookup (ainsert k v l) q).isSome = true ↔ q = k ∨ (alookup l q).isSome = true := by
  by_cases hq : q = k
  · subst hq
    simp [alookup_ainsert_self]
  · rw [alookup_ainsert_of_ne k q v (fun h => hq h.symm)]
    simp [hq]

/-- Split a character list at every dot, mirroring Go's strings.Split with a
single-character separator: the concatenation of the pieces interleaved with
dots reconstructs the input. -/
def splitOnDot : List Char → List (List Char)
  | [] => [[]]
  | c :: cs =>
      let r := splitOnDot cs
      if c = '.' then [] :: r
      else
        match r with
        | [] => [[c]]
        | h :: t => (c :: h) :: t

/-- Join character-list pieces with a dot between consecutive pieces,
mirroring Go's strings.Join with separator dot. -/
def joinDot : List (List Char) → List Char
  | [] => []
  | [x] => x
  | x :: xs => x ++ '.' :: joinDot xs

/-- Extension of a relative path, as computed by the walker in render.go: when
the path contains a dot, the extension is a dot followed by the join of all
dot-separated pieces after the first one, i.e. everything from the first dot
onward; otherwise it is empty. -/
def extOf (rel : String) : String :=
  if rel.data.contains '.' then ⟨'.' :: joinDot ((splitOnDot rel.data).drop 1)⟩
  else ""

/-- Strip a suffix of the given extension's length from the relative path, as
render.go's slicing of rel up to len(rel)-len(ext). -/
def stripExt (rel ext : String) : String :=
  ⟨rel.data.take (rel.data.length - ext.data.length)⟩

/-- Replace the platform separator by a forward slash, as filepath.ToSlash. -/
def toSlash (sep : Char) (s : String) : String :=
  ⟨s.data.map (fun c => if c = sep then '/' else c)⟩

/-- Join path segments with the platform separator, producing the root-relative
path handed to the walker callback (the result of filepath.Rel). -/
def joinSep (sep : Char) : List String → String
  | [] => ""
  | [x] => x
  | x :: xs => x ++ ⟨[sep]⟩ ++ joinSep sep xs

/-- Semantic value of a callable bound in a template set's function table.
The three default stand-ins mirror helpers.go; the bound forms mirror the
closures installed by addYield in render.go; user holds an opaque
user-supplied function, modelled as returning a fixed string. -/
inductive HelperFn where
  | yieldDefault : HelperFn
  | partialDefault : HelperFn
  | currentDefault : HelperFn
  | yieldBound : String → String → HelperFn
  | currentBound : String → HelperFn
  | user : String → HelperFn
  deriving DecidableEq, Repr

/-- One bundle of named template functions, Go's template.FuncMap. -/
abbrev FuncMap := List (String × HelperFn)

/-- The shared function table of a template set. -/
abbrev FuncTable := List (String × HelperFn)

/-- Included helper functions for use when rendering HTML, from helpers.go:
yield and partial fail with a fixed message when no layout is defined and
current returns the empty string with no error. -/
def helperFuncs : FuncMap :=
  [("yield", HelperFn.yieldDefault),
   ("partial", HelperFn.partialDefault),
   ("current", HelperFn.currentDefault)]

/-- Apply one function bundle to a table; each entry overwrites any earlier
binding of the same name, as template.Funcs does. -/
def applyFuncMap (t : FuncTable) (m : FuncMap) : FuncTable :=
  m.foldl (fun acc kv => ainsert kv.1 kv.2 acc) t

/-- A parsed template body node: literal text, the dot action printing the
binding, a field access on the binding, or a call of a named function. This
is the interface-level model of the external html/template body. -/
inductive Node where
  | text : String → Node
  | dot : Node
  | field : String → Node
  | call : String → Node
  deriving DecidableEq, Repr

/-- Raw file contents as seen by the external html/template parser: either a
body it accepts or malformed input with the parser's message. -/
inductive RawTemplate where
  | malformed : String → RawTemplate
  | wellFormed : List Node → RawTemplate
  deriving DecidableEq, Repr

/-- Names of the functions a body calls. -/
def bodyCalls : List Node → List String
  | [] => []
  | Node.call f :: rest => f :: bodyCalls rest
  | _ :: rest => bodyCalls rest

/-- Interface model of html/template parsing: malformed input fails with its
message, and a body referencing a function absent from the current function
table fails at parse time, as the Go parser does. -/
def parseRaw (table : FuncTable) : RawTemplate → Except String (List Node)
  | RawTemplate.malformed m => Except.error m
  | RawTemplate.wellFormed body =>
      match (bodyCalls body).find? (fun f => (alookup table f).isNone) with
      | some f => Except.error ("function " ++ f ++ " not defined")
      | none => Except.ok body

/-- HTML escaping of one character, as html/template escapes string-valued
output in text context. -/
def escapeChar (c : Char) : List Char :=
  if c = '<' then "&lt;".data
  else if c = '>' then "&gt;".data
  else if c = '&' then "&amp;".data
  else if c = '\"' then "&#34;".data
  else if c = '\'' then "&#39;".data
  else [c]

/-- HTML escaping of a string. -/
def htmlEscape (s : String) : String :=
  ⟨s.data.foldr (fun c acc => escapeChar c ++ acc) []⟩

/-- Left and right action delimiters, from render.go. -/
structure Delims where
  Left : String := ""
  Right : String := ""
  deriving DecidableEq, Repr

/-- The compiled template set: the root name (the directory the set was
created with, not a retrievable unit), the delimiter configuration, the
named parsed units, and the shared function table that template.Funcs on any
associated template mutates. -/
structure TemplateSet where
  rootName : String
  delims : Delims
  units : List (String × List Node)
  funcs : FuncTable
  deriving DecidableEq, Repr

/-- Register a parsed body under a derived name, last registration winning,
as re-parsing a name in html/template replaces its definition. -/
def insertUnit (s : TemplateSet) (k : String) (b : List Node) : TemplateSet :=
  { s with units := ainsert k b s.units }

/-- Evaluate one node to the piece of output it contributes, given a callback
that executes a named template of the set (used by the yield closure).
String-valued results are HTML escaped; the yield closure's result is
template.HTML, pre-escaped safe content inserted without re-escaping, as in
addYield in render.go. A function returning a non-nil error aborts execution
with that error, as ExecuteTemplate does. -/
def evalNodeF (runT : String → String → Except String String) (table : FuncTable)
    (binding : String) : Node → Except String String
  | Node.text s => Except.ok s
  | Node.dot => Except.ok (htmlEscape binding)
  | Node.field f => Except.error ("can't evaluate field " ++ f ++ " in type string")
  | Node.call f =>
      match alookup table f with
      | none => Except.error ("function " ++ f ++ " not defined")
      | some hf =>
          match hf with
          | HelperFn.yieldDefault => Except.error "yield called with no layout defined"
          | HelperFn.partialDefault => Except.error "block called with no layout defined"
          | HelperFn.currentDefault => Except.ok (htmlEscape "")
          | HelperFn.yieldBound nm b => runT nm b
          | HelperFn.currentBound nm => Except.ok (htmlEscape nm)
          | HelperFn.user out => Except.ok (htmlEscape out)

/-- Execute a body node by node into an output buffer, failing on the first
erroring node with nothing of the body's output reported, as buffered
template execution does. -/
def execNodesF (runT : String → String → Except String String) (table : FuncTable)
    (binding : String) : List Node → Except String String
  | [] => Except.ok ""
  | n :: rest =>
      match evalNodeF runT table binding n with
      | Except.error m => Except.error m
      | Except.ok piece =>
          match execNodesF runT table binding rest with
          | Except.error m => Except.error m
          | Except.ok restOut => Except.ok (piece ++ restOut)

/-- Execute the named template of a set against a binding, as
ExecuteTemplate: a name with no parsed definition fails, and the yield
closure re-enters execution of the inner template through the same set and
shared function table. The fuel bounds the call depth that Go bounds by its
call stack. -/
def execTemplate (s : TemplateSet) : Nat → String → String → Except String String
  | 0, _, _ => Except.error "exceeded maximum template depth"
  | f + 1, name, binding =>
      match alookup s.units name with
      | none =>
          Except.error ("html/template: no template " ++ name ++
            " associated with template " ++ s.rootName)
      | some body => execNodesF (execTemplate s f) s.funcs binding body

/-- Depth bound standing in for the Go call stack. -/
def maxExecDepth : Nat := 32

/-- Configuration options of the Render object, from render.go, restricted to
the fields the template engine reads. -/
structure Options where
  Directory : String := ""
  Layout : String := ""
  Extensions : List String := []
  Funcs : List FuncMap := []
  Delims : Delims := {}
  Charset : String := ""
  HTMLContentType : String := ""
  IsDevelopment : Bool := false
  deriving Repr

/-- Per-call option override for one HTML call, from render.go. -/
structure HTMLOptions where
  Layout : String := ""
  deriving DecidableEq, Repr

/-- Fill in defaults, as prepareOptions in render.go. -/
def prepareOptions (o : Options) : Options :=
  let o := if o.Charset.length = 0 then { o with Charset := "UTF-8" } else o
  let o := if o.Directory.length = 0 then { o with Directory := "templates" } else o
  let o := if o.Extensions.length = 0 then { o with Extensions := [".tmpl"] } else o
  if o.HTMLContentType.length = 0 then { o with HTMLContentType := "text/html" } else o

/-- One entry handed to the walker callback: its root-relative path as
segments, whether it is a directory, and (for files) its raw contents. -/
structure Entry where
  relSegs : List String
  isDir : Bool
  raw : RawTemplate
  deriving DecidableEq, Repr

/-- Root-relative path of an entry under the platform separator. -/
def relOf (sep : Char) (e : Entry) : String := joinSep sep e.relSegs

/-- Derived unit name of an entry: the relative path with the computed
extension suffix stripped, converted to forward slashes. -/
def derivedName (sep : Char) (e : Entry) : String :=
  toSlash sep (stripExt (relOf sep e) (extOf (relOf sep e)))

/-- Function-table mutation performed while compiling one matched file: the
user bundles are applied in their configured order and the built-in helper
stand-ins after them, following the loop over r.opt.Funcs and the
tmpl.Funcs(helperFuncs) call in compileTemplates in render.go. -/
def fileFuncs (opt : Options) (s : TemplateSet) : TemplateSet :=
  { s with funcs := applyFuncMap (opt.Funcs.foldl applyFuncMap s.funcs) helperFuncs }

/-- Modelled from the spec: the walker skips directory entries (section 4.2
step 2, "for each non-directory entry"; section 4.2 edge case policy). The
current repository's walker guard is not among the provided sources, which
hold an older walker without it; the repository's fs tests pin this
behavior. -/
def skipEntry (e : Entry) : Bool := e.isDir

/-- Outcome of one compilation attempt: a fully populated set, or a panic
raised by template.Must on the first file whose parse fails, carrying the
set as built up to that point (compilation populates the installed set in
place). -/
inductive CompileOutcome where
  | ok : TemplateSet → CompileOutcome
  | panicked : TemplateSet → String → CompileOutcome
  deriving Repr

/-- The walk loop of compileTemplates in render.go: for each non-directory
entry, compute the extension as everything after the first dot of the
relative path; when it equals a configured extension, apply the function
bundles and parse the contents, registering the body under the derived name;
a parse failure panics immediately (template.Must), leaving the remaining
entries unprocessed. -/
def compileList (opt : Options) (sep : Char) : TemplateSet → List Entry → CompileOutcome
  | s, [] => CompileOutcome.ok s
  | s, e :: rest =>
      if skipEntry e then compileList opt sep s rest
      else
        let rel := relOf sep e
        let ext := extOf rel
        if opt.Extensions.contains ext then
          let s1 := fileFuncs opt s
          match parseRaw s1.funcs e.raw with
          | Except.error m => CompileOutcome.panicked s1 m
          | Except.ok body =>
              compileList opt sep (insertUnit s1 (toSlash sep (stripExt rel ext)) body) rest
        else compileList opt sep s rest

/-- The Render service state: options, the installed template set, and the
precompiled charset suffix, from render.go. -/
structure RenderS where
  opt : Options
  templates : TemplateSet
  compiledCharset : String
  deriving Repr

/-- The fresh set compileTemplates installs at its start: rooted at the
configured directory with the configured delimiters, no units, no functions. -/
def initSet (opt : Options) : TemplateSet :=
  { rootName := opt.Directory, delims := opt.Delims, units := [], funcs := [] }

/-- compileTemplates in render.go: replace the installed set by a fresh one
and populate it in place by walking the supplied entries; the second
component carries the message of a panic raised during the walk (none on
success). On a panic the partially populated set is what remains installed. -/
def compileTemplates (r : RenderS) (sep : Char) (walk : List Entry) : RenderS × Option String :=
  match compileList r.opt sep (initSet r.opt) walk with
  | CompileOutcome.ok s => ({ r with templates := s }, none)
  | CompileOutcome.panicked s m => ({ r with templates := s }, some m)

/-- New in render.go: prepare option defaults, then compile the templates
from the supplied walk. -/
def New (o : Options) (sep : Char) (walk : List Entry) : RenderS × Option String :=
  let opt := prepareOptions o
  compileTemplates
    { opt := opt, templates := initSet opt, compiledCharset := "; charset=" ++ opt.Charset }
    sep walk

/-- Modelled from the spec: lookup-by-name on the compiled set (section 4.3,
exact match, absent for names with no parsed definition). The repository's
TemplateLookup accessor is not among the provided sources, only its tests. -/
def TemplateLookup (r : RenderS) (name : String) : Option (List Node) :=
  alookup r.templates.units name

/-- An HTTP response sink: headers, the written status, and the body bytes. -/
structure Response where
  headers : List (String × String) := []
  status : Option Nat := none
  body : String := ""
  deriving DecidableEq, Repr

/-- Set one response header. -/
def setHeader (w : Response) (k v : String) : Response :=
  { w with headers := ainsert k v w.headers }

/-- Go's http.Error: set a plain-text content type, write status 500 and the
error message followed by a newline. -/
def httpError (w : Response) (m : String) : Response :=
  { setHeader w "Content-Type" "text/plain; charset=utf-8" with
      status := some 500, body := w.body ++ m ++ "\n" }

/-- prepareHTMLOptions in render.go: an explicitly supplied per-call options
value is returned as is, wholly replacing the defaults; with none supplied,
the instance-wide layout is used. -/
def prepareHTMLOptions (r : RenderS) : List HTMLOptions → HTMLOptions
  | o :: _ => o
  | [] => { Layout := r.opt.Layout }

/-- addYield in render.go: rebind yield to a closure executing the originally
requested template against the original binding and returning its output as
safe HTML, and current to a closure returning that template's name. The
rebinding mutates the set's shared function table. -/
def addYield (s : TemplateSet) (name : String) (binding : String) : TemplateSet :=
  { s with
      funcs := applyFuncMap s.funcs
        [("yield", HelperFn.yieldBound name binding),
         ("current", HelperFn.currentBound name)] }

/-- HTML in render.go: recompile from the current walk when in development
mode (a recompile panic propagates, writing nothing); resolve the per-call
options; when a non-empty layout is resolved, bind the yield and current
closures and substitute the layout as the execution target, keeping the
binding unchanged; execute into a buffer; on error report it through
http.Error, otherwise write the content type, status and the buffered body.
The result is the new renderer state, the response, and a propagated panic
message if any. -/
def HTML (r : RenderS) (sep : Char) (curWalk : List Entry) (w : Response) (status : Nat)
    (name : String) (binding : String) (htmlOpt : List HTMLOptions) :
    RenderS × Response × Option String :=
  let pr := if r.opt.IsDevelopment then compileTemplates r sep curWalk else (r, none)
  match pr.2 with
  | some m => (pr.1, w, some m)
  | none =>
      let r1 := pr.1
      let o := prepareHTMLOptions r1 htmlOpt
      let tset := if 0 < o.Layout.length then addYield r1.templates name binding
                  else r1.templates
      let target := if 0 < o.Layout.length then o.Layout else name
      let r2 := { r1 with templates := tset }
      match execTemplate tset maxExecDepth target binding with
      | Except.error m => (r2, httpError w m, none)
      | Except.ok out =>
          let w1 := setHeader w "Content-Type" (r2.opt.HTMLContentType ++ r2.compiledCharset)
          (r2, { w1 with status := some status, body := w1.body ++ out }, none)

/-- Head in engine.go: a content type and a status to write. -/
structure Head where
  ContentType : String
  Status : Nat
  deriving DecidableEq, Repr

/-- Head.Write in engine.go. -/
def Head.Write (h : Head) (w : Response) : Response :=
  { setHeader w "Content-Type" h.ContentType with status := some h.Status }

/-- The built-in HTML engine of engine.go (Go type HTML with its Head, Name
and Templates fields). -/
structure HTMLEngine where
  head : Head
  Name : String
  Templates : TemplateSet
  deriving Repr

/-- HTML.Render in engine.go: execute the named template entirely into a
fresh buffer; on failure return the error with the response untouched; on
success write the head then the buffered body. -/
def HTMLEngine.Render (h : HTMLEngine) (w : Response) (binding : String) :
    Response × Except String Unit :=
  match execTemplate h.Templates maxExecDepth h.Name binding with
  | Except.error m => (w, Except.error m)
  | Except.ok out => ({ Head.Write h.head w with body := w.body ++ out }, Except.ok ())

theorem splitOnDot_ne_nil : ∀ l : List Char, splitOnDot l ≠ [] := by
  intro l
  cases l with
  | nil => simp [splitOnDot]
  | cons c cs =>
      simp only [splitOnDot]
      by_cases hc : c = '.'
      · simp [hc]
      · simp only [hc, if_false]
        cases splitOnDot cs with
        | nil => simp
        | cons h t => simp

theorem splitOnDot_append_dot (b : List Char) :
    ∀ a : List Char, '.' ∉ a → splitOnDot (a ++ '.' :: b) = a :: splitOnDot b := by
  intro a
  induction a with
  | nil => intro _; simp [splitOnDot]
  | cons c cs ih =>
      intro h
      have hc : c ≠ '.' := fun hh => h (by simp [hh])
      have hcs : '.' ∉ cs := fun hh => h (by simp [hh])
      simp only [List.cons_append, splitOnDot, hc, if_false]
      rw [show cs.append ('.' :: b) = cs ++ '.' :: b from rfl, ih hcs]

theorem joinDot_splitOnDot : ∀ l : List Char, joinDot (splitOnDot l) = l := by
  intro l
  induction l with
  | nil => rfl
  | cons c cs ih =>
      by_cases hc : c = '.'
      · subst hc
        simp only [splitOnDot, if_pos rfl]
        cases h : splitOnDot cs with
        | nil => exact absurd h (splitOnDot_ne_nil cs)
        | cons h0 t =>
            rw [h] at ih
            simpa [joinDot] using ih
      · simp only [splitOnDot, hc, if_false]
        cases h : splitOnDot cs with
        | nil => exact absurd h (splitOnDot_ne_nil cs)
        | cons h0 t =>
            rw [h] at ih
            cases t with
            | nil => simpa [joinDot] using ih
            | cons t0 ts => simpa [joinDot] using ih

theorem data_append_dot (a b : String) :
    (a ++ "." ++ b).data = a.data ++ '.' :: b.data := by
  simp [String.data_append]

theorem extOf_append_dot (a b : String) (h : '.' ∉ a.data) :
    extOf (a ++ "." ++ b) = "." ++ b := by
  have hdata := data_append_dot a b
  have hcontains : ((a ++ "." ++ b).data).contains '.' = true := by
    rw [hdata]
    simp [List.contains, List.elem_eq_mem]
  have hsplit : splitOnDot ((a ++ "." ++ b).data) = a.data :: splitOnDot b.data := by
    rw [hdata]
    exact splitOnDot_append_dot b.data a.data h
  rw [extOf, if_pos hcontains, hsplit]
  simp only [List.drop_succ_cons, List.drop_zero, joinDot_splitOnDot]
  apply String.ext
  simp [String.data_append]

theorem stripExt_append_dot (a b : String) :
    stripExt (a ++ "." ++ b) ("." ++ b) = a := by
  apply String.ext
  show ((a ++ "." ++ b).data.take ((a ++ "." ++ b).data.length - ("." ++ b).data.length)) = a.data
  have hext : ("." ++ b).data = '.' :: b.data := by simp [String.data_append]
  rw [data_append_dot, hext]
  simp only [List.length_append, List.length_cons]
  have hlen : a.data.length + (b.data.length + 1) - (b.data.length + 1) = a.data.length := by
    omega
  rw [hlen]
  exact List.take_left a.data ('.' :: b.data)

theorem units_fileFuncs (opt : Options) (s : TemplateSet) :
    (fileFuncs opt s).units = s.units := rfl

/-- Characterization of a successful compilation: a name has a unit exactly
when it was already present in the starting set or some non-directory entry
of the walk matches a configured extension and derives that name. -/
theorem compileList_ok_lookup (opt : Options) (sep : Char) :
    ∀ (walk : List Entry) (st s : TemplateSet),
      compileList opt sep st walk = CompileOutcome.ok s →
      ∀ nm, (alookup s.units nm).isSome = true ↔
        ((alookup st.units nm).isSome = true ∨
          ∃ e, e ∈ walk ∧ e.isDir = false ∧
            opt.Extensions.contains (extOf (relOf sep e)) = true ∧
            derivedName sep e = nm) := by
  intro walk
  induction walk with
  | nil =>
      intro st s h nm
      simp only [compileList] at h
      cases h
      simp
  | cons e rest ih =>
      intro st s h nm
      simp only [compileList] at h
      by_cases hd : skipEntry e
      · rw [if_pos hd] at h
        have hdir : e.isDir = true := hd
        rw [ih st s h nm]
        constructor
        · rintro (hl | ⟨f, hf, hfd, hfe, hfn⟩)
          · exact Or.inl hl
          · exact Or.inr ⟨f, List.mem_cons_of_mem e hf, hfd, hfe, hfn⟩
        · rintro (hl | ⟨f, hf, hfd, hfe, hfn⟩)
          · exact Or.inl hl
          · rcases List.mem_cons.mp hf with hfe0 | hfr
            · subst hfe0
              rw [hdir] at hfd
              cases hfd
            · exact Or.inr ⟨f, hfr, hfd, hfe, hfn⟩
      · rw [if_neg hd] at h
        have hdir : e.isDir = false := by
          simpa [skipEntry] using hd
        by_cases hext : opt.Extensions.contains (extOf (relOf sep e)) = true
        · rw [if_pos hext] at h
          cases hp : parseRaw (fileFuncs opt st).funcs e.raw with
          | error m => rw [hp] at h; cases h
          | ok body =>
              rw [hp] at h
              rw [ih _ s h nm]
              have hkey :
                  (alookup (insertUnit (fileFuncs opt st)
                      (toSlash sep (stripExt (relOf sep e) (extOf (relOf sep e)))) body).units
                    nm).isSome = true ↔
                  nm = derivedName sep e ∨ (alookup st.units nm).isSome = true := by
                simp only [insertUnit, units_fileFuncs]
                exact alookup_ainsert_isSome _ nm body st.units
              rw [hkey]
              constructor
              · rintro ((hnm | hl) | ⟨f, hf, hfd, hfe, hfn⟩)
                · exact Or.inr ⟨e, List.mem_cons_self e rest, hdir, hext, hnm.symm⟩
                · exact Or.inl hl
                · exact Or.inr ⟨f, List.mem_cons_of_mem e hf, hfd, hfe, hfn⟩
              · rintro (hl | ⟨f, hf, hfd, hfe, hfn⟩)
                · exact Or.inl (Or.inr hl)
                · rcases List.mem_cons.mp hf with hfe0 | hfr
                  · subst hfe0
                    exact Or.inl (Or.inl hfn.symm)
                  · exact Or.inr ⟨f, hfr, hfd, hfe, hfn⟩
        · rw [if_neg hext] at h
          rw [ih st s h nm]
          constructor
          · rintro (hl | ⟨f, hf, hfd, hfe, hfn⟩)
            · exact Or.inl hl
            · exact Or.inr ⟨f, List.mem_cons_of_mem e hf, hfd, hfe, hfn⟩
          · rintro (hl | ⟨f, hf, hfd, hfe, hfn⟩)
            · exact Or.inl hl
            · rcases List.mem_cons.mp hf with hfe0 | hfr
              · subst hfe0
                exact absurd hfe hext
              · exact Or.inr ⟨f, hfr, hfd, hfe, hfn⟩

/-- Directory entries contribute nothing to compilation: the walk with its
directory entries removed compiles to the same outcome. -/
theorem compileList_filter_dirs (opt : Options) (sep : Char) :
    ∀ (walk : List Entry) (st : TemplateSet),
      compileList opt sep st (walk.filter (fun e => !e.isDir)) =
        compileList opt sep st walk := by
  intro walk
  induction walk with
  | nil => intro st; rfl
  | cons e rest ih =>
      intro st
      by_cases hd : e.isDir
      · have hf : (e :: rest).filter (fun e => !e.isDir) =
            rest.filter (fun e => !e.isDir) := by
          simp [List.filter_cons, hd]
        rw [hf]
        have : compileList opt sep st (e :: rest) = compileList opt sep st rest := by
          simp only [compileList, skipEntry, hd, if_true]
        rw [this, ih st]
      · have hf : (e :: rest).filter (fun e => !e.isDir) =
            e :: rest.filter (fun e => !e.isDir) := by
          simp [List.filter_cons, hd]
        rw [hf]
        simp only [compileList, skipEntry, hd, if_false]
        by_cases hext : opt.Extensions.contains (extOf (relOf sep e)) = true
        · rw [if_pos hext, if_pos hext]
          cases hp : parseRaw (fileFuncs opt st).funcs e.raw with
          | error m => rfl
          | ok body => exact ih _
        · rw [if_neg hext, if_neg hext]
          exact ih st

theorem applyFuncMap_helperFuncs (t : FuncTable) :
    applyFuncMap t helperFuncs =
      ainsert "current" HelperFn.currentDefault
        (ainsert "partial" HelperFn.partialDefault
          (ainsert "yield" HelperFn.yieldDefault t)) := rfl

theorem helper_lookup_yield (t : FuncTable) :
    alookup (applyFuncMap t helperFuncs) "yield" = some HelperFn.yieldDefault := by
  rw [applyFuncMap_helperFuncs]
  rw [alookup_ainsert_of_ne "current" "yield" _ (by decide)]
  rw [alookup_ainsert_of_ne "partial" "yield" _ (by decide)]
  exact alookup_ainsert_self "yield" _ t

theorem helper_lookup_partial (t : FuncTable) :
    alookup (applyFuncMap t helperFuncs) "partial" = some HelperFn.partialDefault := by
  rw [applyFuncMap_helperFuncs]
  rw [alookup_ainsert_of_ne "current" "partial" _ (by decide)]
  exact alookup_ainsert_self "partial" _ _

theorem helper_lookup_current (t : FuncTable) :
    alookup (applyFuncMap t helperFuncs) "current" = some HelperFn.currentDefault := by
  rw [applyFuncMap_helperFuncs]
  exact alookup_ainsert_self "current" _ _

theorem helper_lookup_other (t : FuncTable) (k : String)
    (h1 : k ≠ "yield") (h2 : k ≠ "partial") (h3 : k ≠ "current") :
    alookup (applyFuncMap t helperFuncs) k = alookup t k := by
  rw [applyFuncMap_helperFuncs]
  rw [alookup_ainsert_of_ne "current" k _ (fun h => h3 h.symm)]
  rw [alookup_ainsert_of_ne "partial" k _ (fun h => h2 h.symm)]
  exact alookup_ainsert_of_ne "yield" k _ (fun h => h1 h.symm) t

theorem compileList_cons_dir (opt : Options) (sep : Char) (s : TemplateSet) (e : Entry)
    (rest : List Entry) (hd : e.isDir = true) :
    compileList opt sep s (e :: rest) = compileList opt sep s rest := by
  simp [compileList, skipEntry, hd]

theorem compileList_cons_nomatch (opt : Options) (sep : Char) (s : TemplateSet) (e : Entry)
    (rest : List Entry) (hd : e.isDir = false)
    (hext : opt.Extensions.contains (extOf (relOf sep e)) = false) :
    compileList opt sep s (e :: rest) = compileList opt sep s rest := by
  have hnm : ¬extOf (relOf sep e) ∈ opt.Extensions := by simpa using hext
  simp [compileList, skipEntry, hd, hnm]

theorem compileList_cons_bad (opt : Options) (sep : Char) (s : TemplateSet) (e : Entry)
    (rest : List Entry) (m : String) (hd : e.isDir = false)
    (hext : opt.Extensions.contains (extOf (relOf sep e)) = true)
    (hp : parseRaw (fileFuncs opt s).funcs e.raw = Except.error m) :
    compileList opt sep s (e :: rest) = CompileOutcome.panicked (fileFuncs opt s) m := by
  have hmem : extOf (relOf sep e) ∈ opt.Extensions := by simpa using hext
  simp [compileList, skipEntry, hd, hmem, hp]

theorem compileList_cons_good (opt : Options) (sep : Char) (s : TemplateSet) (e : Entry)
    (rest : List Entry) (body : List Node) (hd : e.isDir = false)
    (hext : opt.Extensions.contains (extOf (relOf sep e)) = true)
    (hp : parseRaw (fileFuncs opt s).funcs e.raw = Except.ok body) :
    compileList opt sep s (e :: rest) =
      compileList opt sep
        (insertUnit (fileFuncs opt s)
          (toSlash sep (stripExt (relOf sep e) (extOf (relOf sep e)))) body) rest := by
  have hmem : extOf (relOf sep e) ∈ opt.Extensions := by simpa using hext
  simp [compileList, skipEntry, hd, hmem, hp]

/-- Whether some entry of the walk is a file matching a configured extension. -/
def anyMatched (opt : Options) (sep : Char) (walk : List Entry) : Bool :=
  walk.any (fun e => !e.isDir && opt.Extensions.contains (extOf (relOf sep e)))

theorem compileList_no_match (opt : Options) (sep : Char) :
    ∀ (walk : List Entry) (st : TemplateSet),
      anyMatched opt sep walk = false →
      compileList opt sep st walk = CompileOutcome.ok st := by
  intro walk
  induction walk with
  | nil => intro st _; rfl
  | cons e rest ih =>
      intro st h
      have hany : (!e.isDir && opt.Extensions.contains (extOf (relOf sep e))) = false ∧
          anyMatched opt sep rest = false := by
        simpa [anyMatched, List.any_cons] using h
      by_cases hd : e.isDir
      · simp only [compileList, skipEntry, hd, if_true]
        exact ih st hany.2
      · have hext : opt.Extensions.contains (extOf (relOf sep e)) = false := by
          rcases hany with ⟨h1, _⟩
          cases hc : opt.Extensions.contains (extOf (relOf sep e)) with
          | false => rfl
          | true => rw [hc] at h1; simp [hd] at h1
        simp only [compileList, skipEntry, hd, if_false, hext]
        simp only [Bool.false_eq_true, if_false]
        exact ih st hany.2

/-- After any successful compilation in which at least one file matched, the
set's shared function table binds yield, partial and current to the built-in
stand-ins of helpers.go, whatever the user bundles were: the stand-ins are
applied after the user bundles for each compiled file. -/
theorem compileList_ok_helpers (opt : Options) (sep : Char) :
    ∀ (walk : List Entry) (st s : TemplateSet),
      compileList opt sep st walk = CompileOutcome.ok s →
      anyMatched opt sep walk = true →
      alookup s.funcs "yield" = some HelperFn.yieldDefault ∧
      alookup s.funcs "partial" = some HelperFn.partialDefault ∧
      alookup s.funcs "current" = some HelperFn.currentDefault := by
  intro walk
  induction walk with
  | nil => intro st s _ hm; cases hm
  | cons e rest ih =>
      intro st s h hm
      cases hd : e.isDir with
      | true =>
          rw [compileList_cons_dir opt sep st e rest hd] at h
          have hrest : anyMatched opt sep rest = true := by
            have hm2 := hm
            rw [anyMatched, List.any_cons, hd] at hm2
            rw [Bool.not_true, Bool.false_and, Bool.false_or] at hm2
            rw [anyMatched]
            exact hm2
          exact ih st s h hrest
      | false =>
          cases hext : opt.Extensions.contains (extOf (relOf sep e)) with
          | true =>
              cases hp : parseRaw (fileFuncs opt st).funcs e.raw with
              | error m =>
                  rw [compileList_cons_bad opt sep st e rest m hd hext hp] at h
                  cases h
              | ok body =>
                  rw [compileList_cons_good opt sep st e rest body hd hext hp] at h
                  cases hrest : anyMatched opt sep rest with
                  | true => exact ih _ s h hrest
                  | false =>
                      rw [compileList_no_match opt sep rest _ hrest] at h
                      injection h with h2
                      subst h2
                      refine ⟨?_, ?_, ?_⟩
                      · exact helper_lookup_yield _
                      · exact helper_lookup_partial _
                      · exact helper_lookup_current _
          | false =>
              rw [compileList_cons_nomatch opt sep st e rest hd hext] at h
              have hm2 := hm
              rw [anyMatched, List.any_cons] at hm2
              rw [hext, Bool.and_false, Bool.false_or] at hm2
              exact ih st s h (by rw [anyMatched]; exact hm2)

theorem addYield_funcs (s : TemplateSet) (name b : String) :
    (addYield s name b).funcs =
      ainsert "current" (HelperFn.currentBound name)
        (ainsert "yield" (HelperFn.yieldBound name b) s.funcs) := rfl

theorem addYield_lookup_yield (s : TemplateSet) (name b : String) :
    alookup (addYield s name b).funcs "yield" = some (HelperFn.yieldBound name b) := by
  rw [addYield_funcs]
  rw [alookup_ainsert_of_ne "current" "yield" _ (by decide)]
  exact alookup_ainsert_self "yield" _ _

theorem addYield_lookup_current (s : TemplateSet) (name b : String) :
    alookup (addYield s name b).funcs "current" = some (HelperFn.currentBound name) := by
  rw [addYield_funcs]
  exact alookup_ainsert_self "current" _ _

theorem addYield_units (s : TemplateSet) (name b : String) :
    (addYield s name b).units = s.units := rfl

/-- Walk used in the layout examples: a directory root, an inner template
printing a greeting and the binding, and a layout wrapping its yield in a
heading. -/
def layoutWalk : List Entry :=
  [⟨["."], true, RawTemplate.wellFormed []⟩,
   ⟨["hello.tmpl"], false, RawTemplate.wellFormed [Node.text "Hello ", Node.dot]⟩,
   ⟨["layout.tmpl"], false,
     RawTemplate.wellFormed [Node.text "<h1>", Node.call "yield", Node.text "</h1>"]⟩]

/-- Renderer compiled from layoutWalk with a configured default layout. -/
def layoutR : RenderS := (New { Layout := "layout" } '/' layoutWalk).1

/-- Variant of layoutWalk whose inner template emits literal markup, to
observe that yield output is not re-escaped by the layout. -/
def layoutWalkB : List Entry :=
  [⟨["hello.tmpl"], false,
     RawTemplate.wellFormed [Node.text "<b>Hello</b> ", Node.dot]⟩,
   ⟨["layout.tmpl"], false,
     RawTemplate.wellFormed [Node.text "<h1>", Node.call "yield", Node.text "</h1>"]⟩]

/-- Renderer compiled from layoutWalkB with a configured default layout. -/
def layoutRB : RenderS := (New { Layout := "layout" } '/' layoutWalkB).1

/-- Walk of the directory-shape example of the spec: files f1.tmpl and
sub/f2.html, a directory literally named dedicated.tmpl, and a leaf file
beneath it. -/
def dirWalk : List Entry :=
  [⟨["."], true, RawTemplate.wellFormed []⟩,
   ⟨["f1.tmpl"], false, RawTemplate.wellFormed [Node.text "one"]⟩,
   ⟨["dedicated.tmpl"], true, RawTemplate.wellFormed []⟩,
   ⟨["dedicated.tmpl", "notbad.tmpl"], false, RawTemplate.wellFormed [Node.text "leaf"]⟩,
   ⟨["sub"], true, RawTemplate.wellFormed []⟩,
   ⟨["sub", "f2.html"], false, RawTemplate.wellFormed [Node.text "two"]⟩]

/-- Options of the directory-shape example after preparation. -/
def dirOpt : Options := prepareOptions { Extensions := [".tmpl", ".html"] }

/-- Renderer compiled from dirWalk. -/
def dirR : RenderS := (New { Extensions := [".tmpl", ".html"] } '/' dirWalk).1

/-- Walk holding one good template before a malformed one and another after
it, for the failed-recompilation scenario. -/
def badWalk : List Entry :=
  [⟨["a.tmpl"], false, RawTemplate.wellFormed [Node.text "A"]⟩,
   ⟨["bad.tmpl"], false, RawTemplate.malformed "unexpected EOF"⟩,
   ⟨["c.tmpl"], false, RawTemplate.wellFormed [Node.text "C"]⟩]

/-- Development-mode renderer whose initially installed set holds one unit
named old. -/
def oldR : RenderS :=
  (New { IsDevelopment := true } '/'
    [⟨["old.tmpl"], false, RawTemplate.wellFormed [Node.text "OLD"]⟩]).1

/-- C1 counterexample: compiling a walk holding a malformed template over a
renderer whose installed set holds the unit old does abort, but the failure
surfaces as a panic from template.Must (the second component of
compileTemplates), the previously installed set is no longer queryable (old
is absent afterwards), and the installed set is the partially populated new
one (a present, c never reached); a development-mode render meeting the bad
walk propagates the panic with nothing written to the response. -/
theorem compile_failure_discards_previous_set :
    (TemplateLookup oldR "old").isSome = true
    ∧ (compileTemplates oldR '/' badWalk).2 = some "unexpected EOF"
    ∧ TemplateLookup (compileTemplates oldR '/' badWalk).1 "old" = none
    ∧ (TemplateLookup (compileTemplates oldR '/' badWalk).1 "a").isSome = true
    ∧ TemplateLookup (compileTemplates oldR '/' badWalk).1 "c" = none
    ∧ (HTML oldR '/' badWalk {} 200 "old" "x" []).2.2 = some "unexpected EOF"
    ∧ (HTML oldR '/' badWalk {} 200 "old" "x" []).2.1 = {} := by
  refine ⟨rfl, rfl, rfl, rfl, rfl, rfl, rfl⟩

/-- C1 amended: if any matched file fails to parse, the compilation attempt
aborts immediately at that file (the remaining entries are not processed),
but the failure surfaces as a panic raised by template.Must rather than a
propagated error value, and because compilation rebuilds the installed set
in place starting from a fresh empty set, the renderer is left with the
partially populated new set built before the failure, not with the
previously installed set. -/
theorem compile_failure_panics_in_place :
    (∀ (opt : Options) (sep : Char) (st : TemplateSet) (e : Entry)
        (rest1 rest2 : List Entry) (m : String),
        e.isDir = false →
        opt.Extensions.contains (extOf (relOf sep e)) = true →
        parseRaw (fileFuncs opt st).funcs e.raw = Except.error m →
        compileList opt sep st (e :: rest1) =
            CompileOutcome.panicked (fileFuncs opt st) m ∧
        compileList opt sep st (e :: rest1) = compileList opt sep st (e :: rest2))
    ∧ (∀ (r : RenderS) (sep : Char) (walk : List Entry) (s : TemplateSet) (m : String),
        compileList r.opt sep (initSet r.opt) walk = CompileOutcome.panicked s m →
        compileTemplates r sep walk = ({ r with templates := s }, some m)) := by
  constructor
  · intro opt sep st e rest1 rest2 m hd hext hp
    constructor
    · exact compileList_cons_bad opt sep st e rest1 m hd hext hp
    · rw [compileList_cons_bad opt sep st e rest1 m hd hext hp,
        compileList_cons_bad opt sep st e rest2 m hd hext hp]
  · intro r sep walk s m h
    simp only [compileTemplates, h]

theorem compile_failure_panics_in_place_witness :
    (compileList (prepareOptions {}) '/' oldR.templates
        [⟨["bad.tmpl"], false, RawTemplate.malformed "unexpected EOF"⟩,
         ⟨["c.tmpl"], false, RawTemplate.wellFormed [Node.text "C"]⟩] =
        CompileOutcome.panicked (fileFuncs (prepareOptions {}) oldR.templates)
          "unexpected EOF"
      ∧ compileList (prepareOptions {}) '/' oldR.templates
          [⟨["bad.tmpl"], false, RawTemplate.malformed "unexpected EOF"⟩,
           ⟨["c.tmpl"], false, RawTemplate.wellFormed [Node.text "C"]⟩] =
        compileList (prepareOptions {}) '/' oldR.templates
          [⟨["bad.tmpl"], false, RawTemplate.malformed "unexpected EOF"⟩])
    ∧ compileTemplates oldR '/' badWalk =
        ({ oldR with templates := (compileTemplates oldR '/' badWalk).1.templates },
          some "unexpected EOF") := by
  constructor
  · exact compile_failure_panics_in_place.1 (prepareOptions {}) '/' oldR.templates
      ⟨["bad.tmpl"], false, RawTemplate.malformed "unexpected EOF"⟩
      [⟨["c.tmpl"], false, RawTemplate.wellFormed [Node.text "C"]⟩] []
      "unexpected EOF" (by rfl) (by rfl) (by rfl)
  · exact compile_failure_panics_in_place.2 oldR '/' badWalk
      (compileTemplates oldR '/' badWalk).1.templates "unexpected EOF" (by rfl)

/-- C2: the walker computes an entry's extension as everything after the
first dot of the root-relative path, not the final suffix (on a path
obtained by putting a dot after a dot-free part, the extension is exactly
the remainder, and stripping it leaves the dot-free part; on compound paths
the computed string spans path separators); a file is compiled exactly when
that computed string equals a configured extension, and the resulting unit
is registered under the relative path with the matched suffix stripped and
converted to forward slashes whatever the platform separator. -/
theorem walker_first_dot_extension_and_registration :
    (∀ a b : String, '.' ∉ a.data →
        extOf (a ++ "." ++ b) = "." ++ b ∧
        stripExt (a ++ "." ++ b) (extOf (a ++ "." ++ b)) = a)
    ∧ extOf "dedicated.tmpl/notbad" = ".tmpl/notbad"
    ∧ extOf "a.tmpl.html" = ".tmpl.html"
    ∧ (∀ (opt : Options) (sep : Char) (st s : TemplateSet) (walk : List Entry),
        compileList opt sep st walk = CompileOutcome.ok s →
        st.units = [] →
        ∀ nm, (alookup s.units nm).isSome = true ↔
          ∃ e, e ∈ walk ∧ e.isDir = false ∧
            opt.Extensions.contains (extOf (relOf sep e)) = true ∧
            derivedName sep e = nm)
    ∧ derivedName '\\' ⟨["sub", "f2.html"], false, RawTemplate.wellFormed []⟩ = "sub/f2" := by
  refine ⟨?_, rfl, rfl, ?_, rfl⟩
  · intro a b h
    refine ⟨extOf_append_dot a b h, ?_⟩
    rw [extOf_append_dot a b h]
    exact stripExt_append_dot a b
  · intro opt sep st s walk h hst nm
    rw [compileList_ok_lookup opt sep walk st s h nm, hst]
    simp [alookup]

theorem walker_first_dot_extension_and_registration_witness :
    (extOf ("sub/f2" ++ "." ++ "html") = "." ++ "html"
      ∧ stripExt ("sub/f2" ++ "." ++ "html") (extOf ("sub/f2" ++ "." ++ "html")) = "sub/f2")
    ∧ ((alookup dirR.templates.units "f1").isSome = true ↔
        ∃ e, e ∈ dirWalk ∧ e.isDir = false ∧
          dirOpt.Extensions.contains (extOf (relOf '/' e)) = true ∧
          derivedName '/' e = "f1") := by
  constructor
  · exact walker_first_dot_extension_and_registration.1 "sub/f2" "html" (by decide)
  · exact walker_first_dot_extension_and_registration.2.2.2.1 dirOpt '/'
      (initSet dirOpt) dirR.templates dirWalk (by rfl) (by rfl) "f1"

/-- C3: a directory entry is never registered as a template unit (removing
every directory entry from a walk leaves the compilation outcome unchanged);
every non-directory entry whose computed extension is configured is looked
up successfully under its derived name after a successful compilation; and
in the concrete directory-shape example, compilation succeeds, f1 and
sub/f2 are lookup hits while the directory-shaped names dedicated.tmpl and
dedicated are absent. -/
theorem directories_never_registered :
    (∀ (opt : Options) (sep : Char) (walk : List Entry) (st : TemplateSet),
        compileList opt sep st (walk.filter (fun e => !e.isDir)) =
          compileList opt sep st walk)
    ∧ (∀ (opt : Options) (sep : Char) (st s : TemplateSet) (walk : List Entry) (e : Entry),
        compileList opt sep st walk = CompileOutcome.ok s →
        e ∈ walk → e.isDir = false →
        opt.Extensions.contains (extOf (relOf sep e)) = true →
        (alookup s.units (derivedName sep e)).isSome = true)
    ∧ (New { Extensions := [".tmpl", ".html"] } '/' dirWalk).2 = none
    ∧ (TemplateLookup dirR "f1").isSome = true
    ∧ (TemplateLookup dirR "sub/f2").isSome = true
    ∧ TemplateLookup dirR "dedicated.tmpl" = none
    ∧ TemplateLookup dirR "dedicated" = none := by
  refine ⟨compileList_filter_dirs, ?_, rfl, rfl, rfl, rfl, rfl⟩
  intro opt sep st s walk e h he hd hext
  rw [compileList_ok_lookup opt sep walk st s h (derivedName sep e)]
  exact Or.inr ⟨e, he, hd, hext, rfl⟩

theorem directories_never_registered_witness :
    (alookup dirR.templates.units
      (derivedName '/' ⟨["sub", "f2.html"], false, RawTemplate.wellFormed [Node.text "two"]⟩)).isSome
      = true :=
  directories_never_registered.2.1 dirOpt '/' (initSet dirOpt) dirR.templates dirWalk
    ⟨["sub", "f2.html"], false, RawTemplate.wellFormed [Node.text "two"]⟩
    (by rfl) (by decide) (by rfl) (by rfl)

/-- Function-table mutation in the order the C4 claim asserts, for
comparison: the built-in stand-ins attached before any user-supplied bundle.
This definition follows the claim's words, not the source, whose
compileTemplates applies the user bundles first. -/
def fileFuncsClaimOrder (opt : Options) (s : TemplateSet) : TemplateSet :=
  { s with funcs := opt.Funcs.foldl applyFuncMap (applyFuncMap s.funcs helperFuncs) }

/-- Options carrying one user bundle that redefines current. -/
def userOpt : Options := { Funcs := [[("current", HelperFn.user "userCurrent")]] }

/-- Renderer compiled with the user bundle redefining current over one file
whose body calls current. -/
def userR : RenderS :=
  (New userOpt '/' [⟨["t.tmpl"], false, RawTemplate.wellFormed [Node.call "current"]⟩]).1

/-- C4 counterexample: with a user bundle redefining current, the compiled
set's function table binds current to the built-in stand-in, not to the user
function, and executing the template that calls current yields the built-in
empty result rather than the user value; under the claim's order (built-ins
attached first, user bundles after) the user binding would have won. The
claim's asserted attachment order is therefore the reverse of the code's. -/
theorem builtin_stand_ins_not_attached_first :
    alookup userR.templates.funcs "current" = some HelperFn.currentDefault
    ∧ alookup (fileFuncsClaimOrder userOpt (initSet (prepareOptions userOpt))).funcs
        "current" = some (HelperFn.user "userCurrent")
    ∧ some HelperFn.currentDefault ≠ some (HelperFn.user "userCurrent")
    ∧ execTemplate userR.templates maxExecDepth "t" "x" = Except.ok "" := by
  refine ⟨rfl, rfl, by decide, rfl⟩

/-- C4 amended: when a matched file is compiled, the user-supplied bundles
are applied first, in their configured order, and the built-in
yield/current/partial stand-ins are attached after all of them, so the
stand-ins override a user bundle defining one of those three names while
every other name keeps its user-supplied binding. -/
theorem user_bundles_applied_before_stand_ins :
    ∀ (opt : Options) (s : TemplateSet),
      alookup (fileFuncs opt s).funcs "yield" = some HelperFn.yieldDefault
      ∧ alookup (fileFuncs opt s).funcs "partial" = some HelperFn.partialDefault
      ∧ alookup (fileFuncs opt s).funcs "current" = some HelperFn.currentDefault
      ∧ ∀ k, k ≠ "yield" → k ≠ "partial" → k ≠ "current" →
          alookup (fileFuncs opt s).funcs k =
            alookup (opt.Funcs.foldl applyFuncMap s.funcs) k := by
  intro opt s
  refine ⟨helper_lookup_yield _, helper_lookup_partial _, helper_lookup_current _, ?_⟩
  intro k h1 h2 h3
  exact helper_lookup_other _ k h1 h2 h3

theorem user_bundles_applied_before_stand_ins_witness :
    alookup (fileFuncs userOpt (initSet (prepareOptions userOpt))).funcs "greet" =
      alookup (userOpt.Funcs.foldl applyFuncMap (initSet (prepareOptions userOpt)).funcs)
        "greet" :=
  (user_bundles_applied_before_stand_ins userOpt
    (initSet (prepareOptions userOpt))).2.2.2 "greet" (by decide) (by decide) (by decide)

/-- C5: when a render call resolves a non-empty layout, the set executed
holds yield bound to the originally requested name with the original
binding and current bound to that name, and the written body is the
layout's execution output against the unchanged binding; the yield closure
returns the inner template's output as pre-escaped safe content (inserted
as is, not re-escaped) and the current closure returns the inner name; in
the concrete example, inner body Hello-dot under the heading layout with
binding gophers renders exactly the heading around Hello gophers, and an
inner body holding literal markup keeps its markup un-escaped inside the
layout. -/
theorem layout_yield_composition :
    (∀ (r : RenderS) (sep : Char) (cur : List Entry) (w : Response) (st : Nat)
        (name b : String) (hop : List HTMLOptions),
        r.opt.IsDevelopment = false →
        0 < (prepareHTMLOptions r hop).Layout.length →
        alookup (HTML r sep cur w st name b hop).1.templates.funcs "yield" =
            some (HelperFn.yieldBound name b) ∧
        alookup (HTML r sep cur w st name b hop).1.templates.funcs "current" =
            some (HelperFn.currentBound name) ∧
        ∀ out, execTemplate (addYield r.templates name b) maxExecDepth
              (prepareHTMLOptions r hop).Layout b = Except.ok out →
            (HTML r sep cur w st name b hop).2.1.body = w.body ++ out)
    ∧ (∀ (runT : String → String → Except String String) (table : FuncTable)
        (binding inner bindingArg out : String),
        alookup table "yield" = some (HelperFn.yieldBound inner bindingArg) →
        runT inner bindingArg = Except.ok out →
        evalNodeF runT table binding (Node.call "yield") = Except.ok out)
    ∧ (∀ (runT : String → String → Except String String) (table : FuncTable)
        (binding inner : String),
        alookup table "current" = some (HelperFn.currentBound inner) →
        evalNodeF runT table binding (Node.call "current") =
          Except.ok (htmlEscape inner))
    ∧ (HTML layoutR '/' layoutWalk {} 200 "hello" "gophers" []).2.1.body =
        "<h1>Hello gophers</h1>"
    ∧ (HTML layoutRB '/' layoutWalkB {} 200 "hello" "gophers" []).2.1.body =
        "<h1><b>Hello</b> gophers</h1>" := by
  refine ⟨?_, ?_, ?_, rfl, rfl⟩
  · intro r sep cur w st name b hop hdev hlay
    have hone : (if r.opt.IsDevelopment then compileTemplates r sep cur
        else (r, none)) = (r, none) := by
      rw [hdev]; rfl
    cases hexec : execTemplate (addYield r.templates name b) maxExecDepth
        (prepareHTMLOptions r hop).Layout b with
    | error m =>
        refine ⟨?_, ?_, ?_⟩
        · simp [HTML, hone, hlay, hexec, addYield_lookup_yield]
        · simp [HTML, hone, hlay, hexec, addYield_lookup_current]
        · intro out hout
          exact Except.noConfusion hout
    | ok out =>
        refine ⟨?_, ?_, ?_⟩
        · simp [HTML, hone, hlay, hexec, addYield_lookup_yield]
        · simp [HTML, hone, hlay, hexec, addYield_lookup_current]
        · intro out2 hout
          injection hout with hout2
          subst hout2
          simp [HTML, hone, hlay, hexec, setHeader]
  · intro runT table binding inner bindingArg out h1 h2
    simp [evalNodeF, h1, h2]
  · intro runT table binding inner h1
    simp [evalNodeF, h1]

theorem layout_yield_composition_witness :
    (alookup (HTML layoutR '/' layoutWalk {} 200 "hello" "gophers" []).1.templates.funcs
        "yield" = some (HelperFn.yieldBound "hello" "gophers"))
    ∧ evalNodeF (fun _ _ => Except.ok "Hello gophers")
        [("yield", HelperFn.yieldBound "hello" "gophers")] "gophers"
        (Node.call "yield") = Except.ok "Hello gophers" := by
  constructor
  · exact ((layout_yield_composition.1 layoutR '/' layoutWalk {} 200 "hello" "gophers" []
      (by rfl) (by decide))).1
  · exact layout_yield_composition.2.1 (fun _ _ => Except.ok "Hello gophers")
      [("yield", HelperFn.yieldBound "hello" "gophers")] "gophers" "hello" "gophers"
      "Hello gophers" (by rfl) (by rfl)

/-- Walk holding one template calling yield and one calling current, with no
layout configured anywhere. -/
def noLayoutWalk : List Entry :=
  [⟨["y.tmpl"], false, RawTemplate.wellFormed [Node.call "yield"]⟩,
   ⟨["c.tmpl"], false, RawTemplate.wellFormed [Node.call "current"]⟩]

/-- Renderer compiled from noLayoutWalk with default options (no layout). -/
def noLayoutR : RenderS := (New {} '/' noLayoutWalk).1

/-- C6: after any successful compilation that matched at least one file, the
names yield, partial and current are bound in the set's function table to
the stand-ins of helpers.go — so parse-time references to them succeed, as
the concrete compilation of bodies calling yield and current does — and at
execution time, with no layout configured, calling yield fails with the
no-layout message while calling current yields the empty string without
error. -/
theorem no_layout_stand_ins :
    (∀ (opt : Options) (sep : Char) (walk : List Entry) (st s : TemplateSet),
        compileList opt sep st walk = CompileOutcome.ok s →
        anyMatched opt sep walk = true →
        alookup s.funcs "yield" = some HelperFn.yieldDefault ∧
        alookup s.funcs "partial" = some HelperFn.partialDefault ∧
        alookup s.funcs "current" = some HelperFn.currentDefault)
    ∧ (New {} '/' noLayoutWalk).2 = none
    ∧ execTemplate noLayoutR.templates maxExecDepth "y" "x" =
        Except.error "yield called with no layout defined"
    ∧ execTemplate noLayoutR.templates maxExecDepth "c" "x" = Except.ok "" := by
  exact ⟨compileList_ok_helpers, rfl, rfl, rfl⟩

theorem no_layout_stand_ins_witness :
    alookup noLayoutR.templates.funcs "yield" = some HelperFn.yieldDefault ∧
    alookup noLayoutR.templates.funcs "partial" = some HelperFn.partialDefault ∧
    alookup noLayoutR.templates.funcs "current" = some HelperFn.currentDefault :=
  no_layout_stand_ins.1 (prepareOptions {}) '/' noLayoutWalk
    (initSet (prepareOptions {})) noLayoutR.templates (by rfl) (by rfl)

/-- C7: the buffered HTML engine of engine.go executes the named template
entirely into an intermediate buffer; whenever execution fails, for any
reason, the error is returned synchronously with the underlying message
preserved and the response is left byte-for-byte untouched — no header, no
status and no fragment of the template's partial output is written. -/
theorem html_engine_error_writes_nothing :
    ∀ (h : HTMLEngine) (w : Response) (b m : String),
      execTemplate h.Templates maxExecDepth h.Name b = Except.error m →
      HTMLEngine.Render h w b = (w, Except.error m) := by
  intro h w b m hexec
  simp [HTMLEngine.Render, hexec]

theorem html_engine_error_writes_nothing_witness :
    HTMLEngine.Render
      ⟨⟨"text/html", 200⟩, "missing", initSet (prepareOptions {})⟩ {} "x" =
      ({}, Except.error
        "html/template: no template missing associated with template templates") :=
  html_engine_error_writes_nothing
    ⟨⟨"text/html", 200⟩, "missing", initSet (prepareOptions {})⟩ {} "x"
    "html/template: no template missing associated with template templates" (by rfl)

/-- Backing files as first observed: one template greeting with Hello. -/
def devWalkA : List Entry :=
  [⟨["hello.tmpl"], false, RawTemplate.wellFormed [Node.text "Hello ", Node.dot]⟩]

/-- The same backing file after an edit: the template now says Goodbye. -/
def devWalkB : List Entry :=
  [⟨["hello.tmpl"], false, RawTemplate.wellFormed [Node.text "Goodbye ", Node.dot]⟩]

/-- Development-mode renderer constructed over the first snapshot. -/
def devR : RenderS := (New { IsDevelopment := true } '/' devWalkA).1

/-- Production-mode renderer constructed over the first snapshot. -/
def prodR : RenderS := (New {} '/' devWalkA).1

/-- C8: with the development flag false, a render call never recompiles (the
installed units are those compiled at construction); with the flag true,
every HTML render recompiles the whole set from the current walk before
executing, so editing the backing file between two render calls changes the
second call's output without reconstructing the renderer, while a
production-mode renderer keeps serving the construction-time output after
the same edit. -/
theorem development_mode_recompiles :
    (∀ (r : RenderS) (sep : Char) (cur : List Entry) (w : Response) (st : Nat)
        (name b : String) (hop : List HTMLOptions),
        r.opt.IsDevelopment = false →
        (HTML r sep cur w st name b hop).1.templates.units = r.templates.units)
    ∧ (∀ (r : RenderS) (sep : Char) (cur : List Entry) (w : Response) (st : Nat)
        (name b : String) (hop : List HTMLOptions) (s : TemplateSet),
        r.opt.IsDevelopment = true →
        compileList r.opt sep (initSet r.opt) cur = CompileOutcome.ok s →
        (HTML r sep cur w st name b hop).1.templates.units = s.units)
    ∧ (HTML devR '/' devWalkA {} 200 "hello" "gophers" []).2.1.body = "Hello gophers"
    ∧ (HTML (HTML devR '/' devWalkA {} 200 "hello" "gophers" []).1 '/' devWalkB
        {} 200 "hello" "gophers" []).2.1.body = "Goodbye gophers"
    ∧ (HTML prodR '/' devWalkB {} 200 "hello" "gophers" []).2.1.body =
        "Hello gophers" := by
  refine ⟨?_, ?_, rfl, rfl, rfl⟩
  · intro r sep cur w st name b hop hdev
    have hone : (if r.opt.IsDevelopment then compileTemplates r sep cur
        else (r, none)) = (r, none) := by
      rw [hdev]; rfl
    by_cases hlay : 0 < (prepareHTMLOptions r hop).Layout.length
    · cases hexec : execTemplate (addYield r.templates name b) maxExecDepth
          (prepareHTMLOptions r hop).Layout b with
      | error m => simp [HTML, hone, hlay, hexec, addYield_units]
      | ok out => simp [HTML, hone, hlay, hexec, addYield_units]
    · cases hexec : execTemplate r.templates maxExecDepth name b with
      | error m => simp [HTML, hone, hlay, hexec]
      | ok out => simp [HTML, hone, hlay, hexec]
  · intro r sep cur w st name b hop s hdev hcomp
    have hone : (if r.opt.IsDevelopment then compileTemplates r sep cur
        else (r, none)) = ({ r with templates := s }, none) := by
      rw [hdev]
      simp only [if_true, compileTemplates, hcomp]
    by_cases hlay : 0 < (prepareHTMLOptions { r with templates := s } hop).Layout.length
    · cases hexec : execTemplate (addYield s name b) maxExecDepth
          (prepareHTMLOptions { r with templates := s } hop).Layout b with
      | error m => simp [HTML, hone, hlay, hexec, addYield_units]
      | ok out => simp [HTML, hone, hlay, hexec, addYield_units]
    · cases hexec : execTemplate s maxExecDepth name b with
      | error m => simp [HTML, hone, hlay, hexec]
      | ok out => simp [HTML, hone, hlay, hexec]

theorem development_mode_recompiles_witness :
    (HTML prodR '/' devWalkB {} 200 "hello" "gophers" []).1.templates.units =
        prodR.templates.units
    ∧ (HTML devR '/' devWalkB {} 200 "hello" "gophers" []).1.templates.units =
        (compileTemplates devR '/' devWalkB).1.templates.units := by
  constructor
  · exact development_mode_recompiles.1 prodR '/' devWalkB {} 200 "hello" "gophers" []
      (by rfl)
  · exact development_mode_recompiles.2.1 devR '/' devWalkB {} 200 "hello" "gophers" []
      (compileTemplates devR '/' devWalkB).1.templates (by rfl) (by rfl)

/-- C10: an explicitly supplied per-call options value wholly replaces the
instance-wide defaults (prepareHTMLOptions returns it unchanged, ignoring
the configured defaults and any further supplied values), so passing an
explicit per-call value with an empty layout renders the requested template
with no layout even though the renderer was constructed with a non-empty
default layout, as the concrete renders of the layout example show. -/
theorem per_call_options_replace_defaults :
    (∀ (r : RenderS) (o : HTMLOptions) (rest : List HTMLOptions),
        prepareHTMLOptions r (o :: rest) = o)
    ∧ (∀ (r : RenderS) (sep : Char) (cur : List Entry) (w : Response) (st : Nat)
        (name b : String) (rest : List HTMLOptions),
        r.opt.IsDevelopment = false →
        (HTML r sep cur w st name b ({ Layout := "" } :: rest)).2.1 =
          (HTML { r with opt := { r.opt with Layout := "" } } sep cur w st name b
            []).2.1)
    ∧ (HTML layoutR '/' layoutWalk {} 200 "hello" "gophers"
        [{ Layout := "" }]).2.1.body = "Hello gophers"
    ∧ (HTML layoutR '/' layoutWalk {} 200 "hello" "gophers" []).2.1.body =
        "<h1>Hello gophers</h1>" := by
  refine ⟨fun r o rest => rfl, ?_, rfl, rfl⟩
  intro r sep cur w st name b rest hdev
  have hone : (if r.opt.IsDevelopment then compileTemplates r sep cur
      else (r, none)) = (r, none) := by
    rw [hdev]; rfl
  have hone2 : (if ({ r with opt := { r.opt with Layout := "" } } : RenderS).opt.IsDevelopment
      then compileTemplates { r with opt := { r.opt with Layout := "" } } sep cur
      else ({ r with opt := { r.opt with Layout := "" } }, none)) =
      ({ r with opt := { r.opt with Layout := "" } }, none) := by
    have : ({ r with opt := { r.opt with Layout := "" } } : RenderS).opt.IsDevelopment
        = false := hdev
    rw [this]; rfl
  cases hexec : execTemplate r.templates maxExecDepth name b with
  | error m => simp [HTML, hone, hone2, hexec, prepareHTMLOptions]
  | ok out => simp [HTML, hone, hone2, hexec, prepareHTMLOptions]

theorem per_call_options_replace_defaults_witness :
    (HTML layoutR '/' layoutWalk {} 200 "hello" "gophers"
        [{ Layout := "" }, { Layout := "layout" }]).2.1 =
      (HTML { layoutR with opt := { layoutR.opt with Layout := "" } } '/' layoutWalk
        {} 200 "hello" "gophers" []).2.1 :=
  per_call_options_replace_defaults.2.1 layoutR '/' layoutWalk {} 200 "hello"
    "gophers" [{ Layout := "layout" }] (by rfl)

end RenderLib
